import Mathlib

/-!
Verification of the Section CLI authenticated request layer.

The definitions below embed the Go sources (`src/api/account.go`,
`src/api/user.go`) and, where the repository snapshot only contains the
tests and callers of a function, model the missing function from the
specification (those definitions carry a doc comment starting with
`Modelled from the spec:`).
-/

namespace Sectionctl

/-- Go `http.Header`: an association of header keys to ordered value
sequences.  We keep it as an ordered association list; Go's map iteration
order is irrelevant to every property proved here. -/
abbrev HeaderMap := List (String × List String)

/-- ASCII lower-casing of one character, the case folding Go's
`textproto.CanonicalMIMEHeaderKey` is insensitive to. -/
def lowerChar (c : Char) : Char :=
  if 65 ≤ c.toNat ∧ c.toNat ≤ 90 then Char.ofNat (c.toNat + 32) else c

/-- Case folding of a header key, as a character list. -/
def foldKey (s : String) : List Char := s.data.map lowerChar

/-- Case-insensitive equality of header keys. -/
def keyMatches (a b : String) : Bool := foldKey a == foldKey b

/-- All values stored under a key, found case-insensitively (the first
matching entry of the association list). -/
def headerGetAll : HeaderMap → String → List String
  | [], _ => []
  | p :: rest, k => if keyMatches p.1 k then p.2 else headerGetAll rest k

/-- Go `http.Header.Get`: case-insensitive lookup returning the first
value, `none` when the key is absent. -/
def headerGet (h : HeaderMap) (k : String) : Option String :=
  (headerGetAll h k).head?

/-- Go map indexing `resp.Header[k]`: a case-sensitive exact lookup that
yields the stored value slice, or `none` for a missing key (Go returns a
nil slice, whose element access panics). -/
def headerExact : HeaderMap → String → Option (List String)
  | [], _ => none
  | p :: rest, k => if p.1 == k then some p.2 else headerExact rest k

/-- Go `http.Header.Add`: append one value under a key, case-insensitive,
creating the entry when missing. -/
def headerAdd (h : HeaderMap) (k v : String) : HeaderMap :=
  match h with
  | [] => [(k, [v])]
  | p :: rest =>
    if keyMatches p.1 k then (p.1, p.2 ++ [v]) :: rest
    else p :: headerAdd rest k v

/-- Add every value of a value slice under one key. -/
def addValues (acc : HeaderMap) (k : String) (vs : List String) : HeaderMap :=
  vs.foldl (fun a v => headerAdd a k v) acc

/-- Merge one caller-supplied header set into the accumulated headers,
additively per key. -/
def addHeaderSet (acc : HeaderMap) (hs : HeaderMap) : HeaderMap :=
  hs.foldl (fun a p => addValues a p.1 p.2) acc

/-- An HTTP response as the error-handling code observes it: status line,
status code and header map (`net/http.Response`). -/
structure HttpResponse where
  status : String
  statusCode : Nat
  headers : HeaderMap
deriving DecidableEq

/-- The response header carrying the platform transaction ID. -/
def apertureTxID : String := "Aperture-Tx-Id"

/-- A Go `error` value of the api package: the two sentinel errors
`ErrStatusUnauthorized` and `ErrStatusForbidden`, or an error built from a
message string. -/
inductive ApiError where
  | errStatusUnauthorized
  | errStatusForbidden
  | message (s : String)
deriving DecidableEq

/-- Modelled from the spec: the line `prettyTxIDError` appends when a
transaction ID is found, identifying it as a Section Transaction ID
followed by the literal ID value (the function itself is not in `src/`,
only its tests). -/
def txIDLine (tx : String) : String := "\nSection Transaction ID: " ++ tx

/-- Modelled from the spec: the line `prettyTxIDError` appends on HTTP 429
advising the caller to wait a few minutes before retrying. -/
def rateLimitHint : String := "\nPlease wait a few minutes and try again."

/-- Modelled from the spec: the message text built by `prettyTxIDError`
(the function is absent from `src/`; only its tests are present).  Base
message is the response's status line; when the `Aperture-Tx-Id` header is
present (case-insensitive lookup, first value) a Section Transaction ID
line is appended; when the status code is 429 a retry-later hint is
appended. -/
def prettyTxIDMsg (r : HttpResponse) : String :=
  let base := r.status
  let base :=
    match headerGet r.headers apertureTxID with
    | some tx => base ++ txIDLine tx
    | none => base
  if r.statusCode = 429 then base ++ rateLimitHint else base

/-- Modelled from the spec: `prettyTxIDError`, the Error Decorator.  It is
a total function (the Lean definition terminates on every input, mirroring
the no-panic invariant) and always produces an error value. -/
def prettyTxIDError (r : HttpResponse) : ApiError :=
  ApiError.message (prettyTxIDMsg r)

/-- Embeds the non-success branch of `CurrentUser` (src/api/user.go):
`switch resp.StatusCode`, 401 and 403 map to the sentinel errors, every
other code falls back to `prettyTxIDError`. -/
def currentUserNonSuccess (r : HttpResponse) : ApiError :=
  if r.statusCode = 401 then ApiError.errStatusUnauthorized
  else if r.statusCode = 403 then ApiError.errStatusForbidden
  else prettyTxIDError r

/-- Embeds the non-200 branch of `Accounts` (src/api/account.go):
`fmt.Errorf("request failed with status %s and transaction ID %s",
resp.Status, resp.Header["Aperture-Tx-Id"][0])`.  The map index plus
`[0]` panics when the header is absent; `none` models that panic. -/
def accountsNonSuccess (r : HttpResponse) : Option ApiError :=
  match headerExact r.headers apertureTxID with
  | some (v :: _) =>
    some (ApiError.message
      ("request failed with status " ++ r.status ++ " and transaction ID " ++ v))
  | _ => none

/-- Embeds the sort comparator of `Accounts` (src/api/account.go):
`sort.Slice(as, func(i, j int) bool { return as[i].ID < as[j].ID })`,
realised as insertion with the same strict comparison. -/
structure Account where
  ID : Int
  Href : String
  AccountName : String
  IsAdmin : Bool
  BillingUser : Int
  Requires2FA : Bool
deriving DecidableEq

/-- Insert one account into a list, before the first element whose ID is
strictly larger (the `<` comparator of src/api/account.go). -/
def insertByID (a : Account) : List Account → List Account
  | [] => [a]
  | b :: rest => if a.ID < b.ID then a :: b :: rest else b :: insertByID a rest

/-- The sort `Accounts` applies before returning. -/
def sortByID (as : List Account) : List Account := as.foldr insertByID []

/-- Embeds the success path of `Accounts` (src/api/account.go) after the
JSON body has been decoded into a list: the decoded accounts, sorted by
ascending ID. -/
def accountsSuccess (decoded : List Account) : List Account := sortByID decoded

/-- Modelled from the spec: the identity header value
`"<tool-name> (<version>)"` set by `request` (the function is absent from
`src/`; only its tests are present). -/
def userAgent (version : String) : String := "sectionctl (" ++ version ++ ")"

/-- Modelled from the spec: the headers `request` places on the outgoing
HTTP request (the function is absent from `src/`).  The identity header is
set first, the auth token is added under `section-token` only when
non-empty, and every caller-supplied header set is merged afterwards,
additively per key. -/
def requestHeaders (token version : String) (extra : List HeaderMap) : HeaderMap :=
  let h : HeaderMap := [("User-Agent", [userAgent version])]
  let h := if token = "" then h else headerAdd h "section-token" token
  extra.foldl addHeaderSet h

/-- The caller's deadline context as `request` observes it: whether the
deadline has already elapsed when the network call would run. -/
structure ReqContext where
  expired : Bool

/-- The environment's answer to the network call: a server response, or a
network-level failure. -/
inductive NetResult where
  | success (resp : HttpResponse)
  | failure (msg : String)

/-- Modelled from the spec: the outcome of `request` (absent from `src/`;
only its tests are present).  An expired context deadline aborts the call
with a deadline-exceeded error; otherwise the raw response is returned
unchanged on network success and the network error is surfaced on
failure. -/
def requestOutcome (ctx : ReqContext) (net : NetResult) : Except String HttpResponse :=
  if ctx.expired then
    Except.error "Get: context deadline exceeded"
  else
    match net with
    | NetResult.success r => Except.ok r
    | NetResult.failure m => Except.error m

/-- Substring containment on strings, via character lists. -/
abbrev strContains (s sub : String) : Prop := sub.data <:+: s.data

/-- No caller-supplied header set mentions the auth header key. -/
abbrev noAuthKey (extra : List HeaderMap) : Prop :=
  ∀ hs ∈ extra, ∀ p ∈ hs, keyMatches p.1 "section-token" = false

/-- Case-insensitive key equality is reflexive. -/
theorem keyMatches_refl (a : String) : keyMatches a a = true := by
  simp [keyMatches]

/-- Case-insensitive key equality means equal case-folded keys. -/
theorem keyMatches_iff {a b : String} : keyMatches a b = true ↔ foldKey a = foldKey b := by
  simp [keyMatches]

/-- Adding a value never disturbs the first value already stored under any
key. -/
theorem headerGet_headerAdd {h : HeaderMap} {k w : String} (k' v : String)
    (hw : headerGet h k = some w) :
    headerGet (headerAdd h k' v) k = some w := by
  induction h with
  | nil => simp [headerGet, headerGetAll] at hw
  | cons p rest ih =>
    by_cases hm : keyMatches p.1 k'
    · by_cases hk : keyMatches p.1 k
      · simp [headerGet, headerGetAll, hk] at hw
        cases hv2 : p.2 with
        | nil => rw [hv2] at hw; simp at hw
        | cons x xs =>
          rw [hv2] at hw
          simp at hw
          simp [headerAdd, hm, headerGet, headerGetAll, hk, hv2, hw]
      · simp [headerGet, headerGetAll, hk] at hw
        simp [headerAdd, hm, headerGet, headerGetAll, hk]
        exact hw
    · by_cases hk : keyMatches p.1 k
      · simp [headerGet, headerGetAll, hk] at hw
        simp [headerAdd, hm, headerGet, headerGetAll, hk]
        exact hw
      · simp [headerGet, headerGetAll, hk] at hw
        simp [headerAdd, hm, headerGet, headerGetAll, hk]
        exact ih hw

/-- Adding a value never removes an existing value from any key. -/
theorem mem_headerGetAll_headerAdd {h : HeaderMap} {k v : String} (k' v' : String)
    (hv : v ∈ headerGetAll h k) :
    v ∈ headerGetAll (headerAdd h k' v') k := by
  induction h with
  | nil => simp [headerGetAll] at hv
  | cons p rest ih =>
    by_cases hm : keyMatches p.1 k'
    · by_cases hk : keyMatches p.1 k
      · simp [headerGetAll, hk] at hv
        simp [headerAdd, hm, headerGetAll, hk]
        exact Or.inl hv
      · simp [headerGetAll, hk] at hv
        simp [headerAdd, hm, headerGetAll, hk]
        exact hv
    · by_cases hk : keyMatches p.1 k
      · simp [headerGetAll, hk] at hv
        simp [headerAdd, hm, headerGetAll, hk]
        exact hv
      · simp [headerGetAll, hk] at hv
        simp [headerAdd, hm, headerGetAll, hk]
        exact ih hv

/-- The value just added is stored under its own key. -/
theorem self_mem_headerAdd (h : HeaderMap) (k v : String) :
    v ∈ headerGetAll (headerAdd h k v) k := by
  induction h with
  | nil => simp [headerAdd, headerGetAll, keyMatches_refl]
  | cons p rest ih =>
    by_cases hm : keyMatches p.1 k
    · simp [headerAdd, hm, headerGetAll]
    · simp [headerAdd, hm, headerGetAll]
      exact ih

/-- Adding under a key that does not case-fold to `k` leaves the values
stored under `k` unchanged. -/
theorem headerGetAll_headerAdd_other {h : HeaderMap} {k k' : String} (v : String)
    (hne : keyMatches k' k = false) :
    headerGetAll (headerAdd h k' v) k = headerGetAll h k := by
  induction h with
  | nil => simp [headerAdd, headerGetAll, hne]
  | cons p rest ih =>
    by_cases hm : keyMatches p.1 k'
    · have hpk : keyMatches p.1 k = false := by
        rw [keyMatches_iff] at hm
        by_contra hc
        rw [Bool.not_eq_false, keyMatches_iff] at hc
        rw [← Bool.not_eq_true, keyMatches_iff] at hne
        exact hne (hm ▸ hc)
      simp [headerAdd, hm, headerGetAll, hpk]
    · by_cases hk : keyMatches p.1 k
      · simp [headerAdd, hm, headerGetAll, hk]
      · simp [headerAdd, hm, headerGetAll, hk]
        exact ih

/-- `addValues` never disturbs the first value stored under any key. -/
theorem headerGet_addValues {h : HeaderMap} {k w : String} (k' : String) (vs : List String)
    (hw : headerGet h k = some w) :
    headerGet (addValues h k' vs) k = some w := by
  induction vs generalizing h with
  | nil => simpa [addValues] using hw
  | cons v rest ih =>
    simp only [addValues, List.foldl_cons]
    exact ih (headerGet_headerAdd k' v hw)

/-- `addValues` never removes an existing value from any key. -/
theorem mem_addValues_of_mem {h : HeaderMap} {k v : String} (k' : String) (vs : List String)
    (hv : v ∈ headerGetAll h k) :
    v ∈ headerGetAll (addValues h k' vs) k := by
  induction vs generalizing h with
  | nil => simpa [addValues] using hv
  | cons v' rest ih =>
    simp only [addValues, List.foldl_cons]
    exact ih (mem_headerGetAll_headerAdd k' v' hv)

/-- Every value handed to `addValues` ends up stored under its key. -/
theorem mem_addValues_self {v : String} (h : HeaderMap) (k : String) (vs : List String)
    (hv : v ∈ vs) :
    v ∈ headerGetAll (addValues h k vs) k := by
  induction vs generalizing h with
  | nil => simp at hv
  | cons v' rest ih =>
    simp only [addValues, List.foldl_cons]
    rcases List.mem_cons.mp hv with heq | hmem
    · subst heq
      exact mem_addValues_of_mem k rest (self_mem_headerAdd h k v)
    · exact ih _ hmem

/-- `addValues` under keys foreign to `k` leaves `k`'s values unchanged. -/
theorem headerGetAll_addValues_other {h : HeaderMap} {k k' : String} (vs : List String)
    (hne : keyMatches k' k = false) :
    headerGetAll (addValues h k' vs) k = headerGetAll h k := by
  induction vs generalizing h with
  | nil => simp [addValues]
  | cons v rest ih =>
    have hstep : addValues h k' (v :: rest) = addValues (headerAdd h k' v) k' rest := rfl
    rw [hstep, ih, headerGetAll_headerAdd_other v hne]

/-- Merging a header set never disturbs the first value under any key. -/
theorem headerGet_addHeaderSet {acc : HeaderMap} {k w : String} (hs : HeaderMap)
    (hw : headerGet acc k = some w) :
    headerGet (addHeaderSet acc hs) k = some w := by
  induction hs generalizing acc with
  | nil => simpa [addHeaderSet] using hw
  | cons p rest ih =>
    simp only [addHeaderSet, List.foldl_cons]
    exact ih (headerGet_addValues p.1 p.2 hw)

/-- Merging a header set never removes an existing value from any key. -/
theorem mem_addHeaderSet_of_mem {acc : HeaderMap} {k v : String} (hs : HeaderMap)
    (hv : v ∈ headerGetAll acc k) :
    v ∈ headerGetAll (addHeaderSet acc hs) k := by
  induction hs generalizing acc with
  | nil => simpa [addHeaderSet] using hv
  | cons p rest ih =>
    simp only [addHeaderSet, List.foldl_cons]
    exact ih (mem_addValues_of_mem p.1 p.2 hv)

/-- Every key/value pair of a merged header set ends up on the result. -/
theorem mem_addHeaderSet_self {v : String} {p : String × List String} (acc : HeaderMap)
    (hs : HeaderMap) (hp : p ∈ hs) (hv : v ∈ p.2) :
    v ∈ headerGetAll (addHeaderSet acc hs) p.1 := by
  induction hs generalizing acc with
  | nil => simp at hp
  | cons q rest ih =>
    simp only [addHeaderSet, List.foldl_cons]
    rcases List.mem_cons.mp hp with heq | hmem
    · subst heq
      exact mem_addHeaderSet_of_mem rest (mem_addValues_self acc p.1 p.2 hv)
    · exact ih _ hmem

/-- Merging a header set whose keys are all foreign to `k` leaves `k`'s
values unchanged. -/
theorem headerGetAll_addHeaderSet_other {acc : HeaderMap} {k : String} (hs : HeaderMap)
    (hne : ∀ p ∈ hs, keyMatches p.1 k = false) :
    headerGetAll (addHeaderSet acc hs) k = headerGetAll acc k := by
  induction hs generalizing acc with
  | nil => simp [addHeaderSet]
  | cons p rest ih =>
    have hstep : addHeaderSet acc (p :: rest) = addHeaderSet (addValues acc p.1 p.2) rest := rfl
    rw [hstep, ih fun q hq => hne q (List.mem_cons_of_mem p hq),
      headerGetAll_addValues_other p.2 (hne p (List.mem_cons_self _ _))]

/-- Folding caller header sets never disturbs the first value under any
key. -/
theorem headerGet_foldSets {acc : HeaderMap} {k w : String} (extra : List HeaderMap)
    (hw : headerGet acc k = some w) :
    headerGet (extra.foldl addHeaderSet acc) k = some w := by
  induction extra generalizing acc with
  | nil => simpa using hw
  | cons hs rest ih =>
    simp only [List.foldl_cons]
    exact ih (headerGet_addHeaderSet hs hw)

/-- Folding caller header sets never removes an existing value. -/
theorem mem_foldSets_of_mem {acc : HeaderMap} {k v : String} (extra : List HeaderMap)
    (hv : v ∈ headerGetAll acc k) :
    v ∈ headerGetAll (extra.foldl addHeaderSet acc) k := by
  induction extra generalizing acc with
  | nil => simpa using hv
  | cons hs rest ih =>
    simp only [List.foldl_cons]
    exact ih (mem_addHeaderSet_of_mem hs hv)

/-- Every key/value pair of every caller header set ends up on the
result of the fold. -/
theorem mem_foldSets_self {v : String} {p : String × List String} {hs : HeaderMap}
    (acc : HeaderMap) (extra : List HeaderMap) (hin : hs ∈ extra) (hp : p ∈ hs)
    (hv : v ∈ p.2) :
    v ∈ headerGetAll (extra.foldl addHeaderSet acc) p.1 := by
  induction extra generalizing acc with
  | nil => simp at hin
  | cons hs' rest ih =>
    simp only [List.foldl_cons]
    rcases List.mem_cons.mp hin with heq | hmem
    · subst heq
      exact mem_foldSets_of_mem rest (mem_addHeaderSet_self acc hs hp hv)
    · exact ih _ hmem

/-- Folding caller header sets none of which mentions `k` leaves `k`'s
values unchanged. -/
theorem headerGetAll_foldSets_other {acc : HeaderMap} {k : String} (extra : List HeaderMap)
    (hne : ∀ hs ∈ extra, ∀ p ∈ hs, keyMatches p.1 k = false) :
    headerGetAll (extra.foldl addHeaderSet acc) k = headerGetAll acc k := by
  induction extra generalizing acc with
  | nil => simp
  | cons hs rest ih =>
    have hstep : List.foldl addHeaderSet acc (hs :: rest)
        = List.foldl addHeaderSet (addHeaderSet acc hs) rest := rfl
    rw [hstep, ih fun q hq => hne q (List.mem_cons_of_mem hs hq),
      headerGetAll_addHeaderSet_other hs (hne hs (List.mem_cons_self _ _))]

/-- Concatenating strings concatenates their character lists. -/
theorem data_append (a b : String) : (a ++ b).data = a.data ++ b.data := rfl

/-- A factor of the left part is a factor of the concatenation. -/
theorem substr_append_left {α : Type} {l a : List α} (b : List α) (h : l <:+: a) :
    l <:+: a ++ b := by
  obtain ⟨s, t, hst⟩ := h
  exact ⟨s, t ++ b, by rw [← hst]; simp [List.append_assoc]⟩

/-- A factor of the right part is a factor of the concatenation. -/
theorem substr_append_right {α : Type} {l b : List α} (a : List α) (h : l <:+: b) :
    l <:+: a ++ b := by
  obtain ⟨s, t, hst⟩ := h
  exact ⟨a ++ s, t, by rw [← hst]; simp [List.append_assoc]⟩

/-- A factor of a concatenation lies in the left part, lies in the right
part, or straddles the border: a non-empty tail of the left part followed
by a non-empty head of the right part. -/
theorem substr_append_cases {α : Type} {l a b : List α} (h : l <:+: a ++ b) :
    l <:+: a ∨ l <:+: b ∨
      ∃ l₁ l₂, l = l₁ ++ l₂ ∧ l₁ ≠ [] ∧ l₂ ≠ [] ∧
        (∃ s, s ++ l₁ = a) ∧ (∃ t, l₂ ++ t = b) := by
  obtain ⟨s, t, hst⟩ := h
  by_cases h1 : s.length + l.length ≤ a.length
  · left
    have hst' : (s ++ l) ++ t = a ++ b := by simpa [List.append_assoc] using hst
    have hlen : (s ++ l).length ≤ a.length := by simpa using h1
    have htake : ((s ++ l) ++ t).take a.length = (s ++ l) ++ t.take (a.length - (s ++ l).length) := by
      rw [List.take_append_eq_append_take, List.take_of_length_le hlen]
    have hA : a = (s ++ l) ++ t.take (a.length - (s ++ l).length) := by
      have : ((s ++ l) ++ t).take a.length = (a ++ b).take a.length := by rw [hst']
      rw [htake] at this
      simpa using this.symm
    exact ⟨s, t.take (a.length - (s ++ l).length), hA.symm⟩
  · by_cases h2 : a.length ≤ s.length
    · right; left
      have hst' : s ++ (l ++ t) = a ++ b := by simpa [List.append_assoc] using hst
      have hS : s.take a.length = a := by
        have : (s ++ (l ++ t)).take a.length = (a ++ b).take a.length := by rw [hst']
        rw [List.take_append_eq_append_take, Nat.sub_eq_zero_of_le h2] at this
        simpa using this
      have hsplit : s = a ++ s.drop a.length := by
        conv_lhs => rw [← List.take_append_drop a.length s]
        rw [hS]
      rw [hsplit] at hst'
      have hst'' : a ++ (s.drop a.length ++ (l ++ t)) = a ++ b := by
        simpa [List.append_assoc] using hst'
      have hB : s.drop a.length ++ (l ++ t) = b := List.append_cancel_left hst''
      refine ⟨s.drop a.length, t, ?_⟩
      simpa [List.append_assoc] using hB
    · right; right
      have hlt1 : a.length < s.length + l.length := Nat.lt_of_not_le h1
      have hlt2 : s.length < a.length := Nat.lt_of_not_le h2
      set k := a.length - s.length with hk
      have hkpos : 0 < k := Nat.sub_pos_of_lt hlt2
      have hklt : k < l.length := by omega
      refine ⟨l.take k, l.drop k, (List.take_append_drop k l).symm, ?_, ?_, ?_⟩
      · rw [← List.length_pos, List.length_take]
        omega
      · rw [← List.length_pos, List.length_drop]
        omega
      · have hst2 : (s ++ l.take k) ++ (l.drop k ++ t) = a ++ b := by
          rw [← hst]
          conv_lhs => rw [List.append_assoc, ← List.append_assoc (l.take k), List.take_append_drop]
          rw [List.append_assoc]
        have hlen : (s ++ l.take k).length = a.length := by
          rw [List.length_append, List.length_take]
          omega
        obtain ⟨he1, he2⟩ := List.append_inj hst2 hlen
        exact ⟨⟨s, he1⟩, ⟨t, he2⟩⟩

/-- Every element of an insertion result is the inserted account or an
element of the original list. -/
theorem mem_insertByID {x a : Account} {l : List Account} (h : x ∈ insertByID a l) :
    x = a ∨ x ∈ l := by
  induction l with
  | nil =>
    simp [insertByID] at h
    exact Or.inl h
  | cons b rest ih =>
    by_cases hlt : a.ID < b.ID
    · simp [insertByID, hlt] at h
      rcases h with h | h | h
      · exact Or.inl h
      · exact Or.inr (by simp [h])
      · exact Or.inr (by simp [h])
    · simp [insertByID, hlt] at h
      rcases h with h | h
      · exact Or.inr (by simp [h])
      · rcases ih h with h' | h'
        · exact Or.inl h'
        · exact Or.inr (by simp [h'])

/-- Insertion with the `<` comparator preserves sortedness by ascending
ID. -/
theorem sorted_insertByID {a : Account} {l : List Account}
    (h : List.Sorted (fun x y : Account => x.ID ≤ y.ID) l) :
    List.Sorted (fun x y : Account => x.ID ≤ y.ID) (insertByID a l) := by
  induction l with
  | nil => simp [insertByID]
  | cons b rest ih =>
    rw [List.sorted_cons] at h
    obtain ⟨hb, hrest⟩ := h
    by_cases hlt : a.ID < b.ID
    · rw [show insertByID a (b :: rest) = a :: b :: rest by simp [insertByID, hlt]]
      rw [List.sorted_cons]
      refine ⟨?_, List.sorted_cons.mpr ⟨hb, hrest⟩⟩
      intro x hx
      rcases List.mem_cons.mp hx with hx | hx
      · exact hx ▸ Int.le_of_lt hlt
      · exact le_trans (Int.le_of_lt hlt) (hb x hx)
    · rw [show insertByID a (b :: rest) = b :: insertByID a rest by simp [insertByID, hlt]]
      rw [List.sorted_cons]
      refine ⟨?_, ih hrest⟩
      intro x hx
      rcases mem_insertByID hx with hx | hx
      · exact hx ▸ Int.not_lt.mp hlt
      · exact hb x hx

/-- Shape of the decorated message when a transaction ID is found. -/
theorem prettyTxIDMsg_of_some {r : HttpResponse} {tx : String}
    (hh : headerGet r.headers apertureTxID = some tx) :
    prettyTxIDMsg r =
      if r.statusCode = 429 then (r.status ++ txIDLine tx) ++ rateLimitHint
      else r.status ++ txIDLine tx := by
  simp [prettyTxIDMsg, hh]

/-- Shape of the decorated message when no transaction ID is found. -/
theorem prettyTxIDMsg_of_none {r : HttpResponse}
    (hh : headerGet r.headers apertureTxID = none) :
    prettyTxIDMsg r =
      if r.statusCode = 429 then r.status ++ rateLimitHint else r.status := by
  simp [prettyTxIDMsg, hh]

/-- The transaction-ID line contains the identifying phrase. -/
theorem phrase_in_txIDLine (tx : String) :
    ("Section Transaction ID").data <:+: (txIDLine tx).data := by
  rw [show txIDLine tx = "\nSection Transaction ID: " ++ tx from rfl, data_append]
  exact substr_append_left _ (by decide)

/-- The transaction-ID line contains the literal ID value. -/
theorem tx_in_txIDLine (tx : String) : tx.data <:+: (txIDLine tx).data := by
  rw [show txIDLine tx = "\nSection Transaction ID: " ++ tx from rfl, data_append]
  exact substr_append_right _ (List.infix_refl _)

/-- Claim C1 (corrected): the claim names both resource clients, but only
`CurrentUser` special-cases 401 and 403; `Accounts` maps every non-200
response to a formatted error built from the `Aperture-Tx-Id` header, so
on a 401 response it does not return the Unauthorized sentinel. -/
theorem c1_counterexample :
    (⟨"401 Unauthorized", 401, [("Aperture-Tx-Id", ["12345"])]⟩ : HttpResponse).statusCode = 401
    ∧ accountsNonSuccess ⟨"401 Unauthorized", 401, [("Aperture-Tx-Id", ["12345"])]⟩
      ≠ some ApiError.errStatusUnauthorized := by
  constructor
  · rfl
  · decide

/-- Claim C1 (amended): for every non-success response, `CurrentUser`
returns the Unauthorized sentinel on 401, the Forbidden sentinel on 403,
and the Error Decorator's result on every other code; `Accounts` performs
no such special-casing and does not use the decorator: it never returns a
sentinel error, it returns the formatted error naming the status line and
the first `Aperture-Tx-Id` value whenever that header is present, and it
panics instead of returning an error when the header is absent. -/
theorem c1_client_error_dispatch (r : HttpResponse) (_hns : r.statusCode ≠ 200) :
    (r.statusCode = 401 → currentUserNonSuccess r = ApiError.errStatusUnauthorized)
    ∧ (r.statusCode = 403 → currentUserNonSuccess r = ApiError.errStatusForbidden)
    ∧ (r.statusCode ≠ 401 → r.statusCode ≠ 403 →
        currentUserNonSuccess r = prettyTxIDError r)
    ∧ (∀ e, accountsNonSuccess r = some e →
        e ≠ ApiError.errStatusUnauthorized ∧ e ≠ ApiError.errStatusForbidden)
    ∧ (∀ v rest, headerExact r.headers apertureTxID = some (v :: rest) →
        accountsNonSuccess r = some (ApiError.message
          ("request failed with status " ++ r.status ++ " and transaction ID " ++ v)))
    ∧ (headerExact r.headers apertureTxID = none → accountsNonSuccess r = none) := by
  refine ⟨?_, ?_, ?_, ?_, ?_, ?_⟩
  · intro h; simp [currentUserNonSuccess, h]
  · intro h; simp [currentUserNonSuccess, h]
  · intro h1 h2; simp [currentUserNonSuccess, h1, h2]
  · intro e he
    cases hexa : headerExact r.headers apertureTxID with
    | none => simp [accountsNonSuccess, hexa] at he
    | some vs =>
      cases vs with
      | nil => simp [accountsNonSuccess, hexa] at he
      | cons v rest =>
        simp [accountsNonSuccess, hexa] at he
        rw [← he]
        exact ⟨by simp, by simp⟩
  · intro v rest hexa
    simp [accountsNonSuccess, hexa]
  · intro hnone; simp [accountsNonSuccess, hnone]

/-- Witness for C1 at concrete responses: a 401, a 403 and a 500 through
`CurrentUser`, and a 500 with and without the transaction header through
`Accounts`. -/
theorem c1_client_error_dispatch_witness :
    currentUserNonSuccess ⟨"401 Unauthorized", 401, []⟩ = ApiError.errStatusUnauthorized
    ∧ currentUserNonSuccess ⟨"403 Forbidden", 403, []⟩ = ApiError.errStatusForbidden
    ∧ currentUserNonSuccess ⟨"500 Internal Server Error", 500, []⟩
      = prettyTxIDError ⟨"500 Internal Server Error", 500, []⟩
    ∧ accountsNonSuccess ⟨"500 Internal Server Error", 500, [("Aperture-Tx-Id", ["12345"])]⟩
      = some (ApiError.message
        "request failed with status 500 Internal Server Error and transaction ID 12345")
    ∧ accountsNonSuccess ⟨"500 Internal Server Error", 500, []⟩ = none :=
  ⟨(c1_client_error_dispatch ⟨"401 Unauthorized", 401, []⟩ (by decide)).1 rfl,
   (c1_client_error_dispatch ⟨"403 Forbidden", 403, []⟩ (by decide)).2.1 rfl,
   (c1_client_error_dispatch ⟨"500 Internal Server Error", 500, []⟩ (by decide)).2.2.1
     (by decide) (by decide),
   (c1_client_error_dispatch
      ⟨"500 Internal Server Error", 500, [("Aperture-Tx-Id", ["12345"])]⟩
      (by decide)).2.2.2.2.1 "12345" [] (by decide),
   (c1_client_error_dispatch ⟨"500 Internal Server Error", 500, []⟩ (by decide)).2.2.2.2.2 rfl⟩

/-- Claim C2: for every response, whatever headers are present or absent
(including an empty header map), the Error Decorator is total (the Lean
function is defined on every input, mirroring the no-panic invariant) and
returns an error value, never a success. -/
theorem c2_decorator_total_and_failing (r : HttpResponse) :
    ∃ s, prettyTxIDError r = ApiError.message s :=
  ⟨prettyTxIDMsg r, rfl⟩

/-- Claim C3 (corrected): as stated the claim fails when the status line
itself mentions the phrase: a response with status line
`"Section Transaction ID hoax"` and no transaction header produces an
error text containing `"Section Transaction ID"`. -/
theorem c3_counterexample :
    headerGet ([] : HeaderMap) apertureTxID = none
    ∧ ("Section Transaction ID").data
      <:+: (prettyTxIDMsg ⟨"Section Transaction ID hoax", 500, []⟩).data := by
  constructor
  · rfl
  · decide

/-- Claim C3 (amended): if the `Aperture-Tx-Id` header is present
(case-insensitive lookup, first value) the error text contains both
`"Section Transaction ID"` and that first value; if the header is absent
and the status line does not itself contain `"Section Transaction ID"`,
the error text does not contain it. -/
theorem c3_transaction_id_reporting (r : HttpResponse) :
    (∀ tx, headerGet r.headers apertureTxID = some tx →
      strContains (prettyTxIDMsg r) "Section Transaction ID"
      ∧ strContains (prettyTxIDMsg r) tx)
    ∧ (headerGet r.headers apertureTxID = none →
      ¬ strContains r.status "Section Transaction ID" →
      ¬ strContains (prettyTxIDMsg r) "Section Transaction ID") := by
  constructor
  · intro tx hsome
    rw [strContains, strContains, prettyTxIDMsg_of_some hsome]
    by_cases h429 : r.statusCode = 429
    · rw [if_pos h429, data_append, data_append]
      exact ⟨substr_append_left _ (substr_append_right _ (phrase_in_txIDLine tx)),
        substr_append_left _ (substr_append_right _ (tx_in_txIDLine tx))⟩
    · rw [if_neg h429, data_append]
      exact ⟨substr_append_right _ (phrase_in_txIDLine tx),
        substr_append_right _ (tx_in_txIDLine tx)⟩
  · intro hnone hstat hcon
    rw [strContains, prettyTxIDMsg_of_none hnone] at hcon
    by_cases h429 : r.statusCode = 429
    · rw [if_pos h429, data_append] at hcon
      rcases substr_append_cases hcon with h | h | ⟨l₁, l₂, heq, _, h2ne, _, ⟨t, hpre⟩⟩
      · exact hstat h
      · exact absurd h (by decide)
      · obtain ⟨c, cs, rfl⟩ := List.exists_cons_of_ne_nil h2ne
        have hf : c :: (cs ++ t) = rateLimitHint.data := by simpa using hpre
        rw [show rateLimitHint.data
          = '\n' :: ("Please wait a few minutes and try again.").data from rfl] at hf
        have hc : c = '\n' := by injection hf
        have hmem : '\n' ∈ ("Section Transaction ID").data := by
          rw [heq, ← hc]
          exact List.mem_append_right _ (List.mem_cons_self _ _)
        exact absurd hmem (by decide)
    · rw [if_neg h429] at hcon
      exact hstat hcon

/-- Witness for C3 at concrete responses: a 500 with transaction ID 12345
and a 500 with no transaction header. -/
theorem c3_transaction_id_reporting_witness :
    (strContains (prettyTxIDMsg ⟨"500 Internal Server Error", 500,
        [("Aperture-Tx-Id", ["12345"])]⟩) "Section Transaction ID"
      ∧ strContains (prettyTxIDMsg ⟨"500 Internal Server Error", 500,
        [("Aperture-Tx-Id", ["12345"])]⟩) "12345")
    ∧ ¬ strContains (prettyTxIDMsg ⟨"500 Internal Server Error", 500, []⟩)
        "Section Transaction ID" :=
  ⟨(c3_transaction_id_reporting ⟨"500 Internal Server Error", 500,
      [("Aperture-Tx-Id", ["12345"])]⟩).1 "12345" (by decide),
   (c3_transaction_id_reporting ⟨"500 Internal Server Error", 500, []⟩).2
      rfl (by decide)⟩

/-- Claim C4: every 429 response is decorated with a line advising the
caller to wait a few minutes before retrying, whether or not a
transaction ID is present. -/
theorem c4_rate_limit_hint (r : HttpResponse) (h429 : r.statusCode = 429) :
    strContains (prettyTxIDMsg r) "Please wait a few minutes" := by
  have key : ∀ b : String, strContains (b ++ rateLimitHint) "Please wait a few minutes" := by
    intro b
    rw [strContains, data_append]
    exact substr_append_right _ (by decide)
  cases hh : headerGet r.headers apertureTxID with
  | none => rw [prettyTxIDMsg_of_none hh, if_pos h429]; exact key _
  | some tx => rw [prettyTxIDMsg_of_some hh, if_pos h429]; exact key _

/-- Witness for C4 at two concrete 429 responses, one with the
transaction header and one without. -/
theorem c4_rate_limit_hint_witness :
    strContains (prettyTxIDMsg ⟨"429 Too Many Requests", 429,
      [("Aperture-Tx-Id", ["12345"])]⟩) "Please wait a few minutes"
    ∧ strContains (prettyTxIDMsg ⟨"429 Too Many Requests", 429, []⟩)
      "Please wait a few minutes" :=
  ⟨c4_rate_limit_hint ⟨"429 Too Many Requests", 429, [("Aperture-Tx-Id", ["12345"])]⟩ rfl,
   c4_rate_limit_hint ⟨"429 Too Many Requests", 429, []⟩ rfl⟩

/-- Claim C9: every list returned by the success path of `Accounts` is
sorted in ascending order of the ID field. -/
theorem c9_accounts_sorted (decoded : List Account) :
    List.Sorted (fun x y : Account => x.ID ≤ y.ID) (accountsSuccess decoded) := by
  unfold accountsSuccess sortByID
  induction decoded with
  | nil => exact List.sorted_nil
  | cons a rest ih => exact sorted_insertByID ih

/-- Claim C10: on a non-200 response lacking the `Aperture-Tx-Id` header,
`Accounts` panics (the map index followed by `[0]` hits a nil slice)
instead of returning an error value; `none` is the panic of the model. -/
theorem c10_accounts_panics_on_missing_txid (r : HttpResponse)
    (_hns : r.statusCode ≠ 200)
    (habs : headerExact r.headers apertureTxID = none) :
    accountsNonSuccess r = none := by
  simp [accountsNonSuccess, habs]

/-- Witness for C10 at a concrete 500 response with no headers. -/
theorem c10_accounts_panics_on_missing_txid_witness :
    (⟨"500 Internal Server Error", 500, []⟩ : HttpResponse).statusCode ≠ 200
    ∧ headerExact ([] : HeaderMap) apertureTxID = none
    ∧ accountsNonSuccess ⟨"500 Internal Server Error", 500, []⟩ = none :=
  ⟨by decide, rfl,
   c10_accounts_panics_on_missing_txid ⟨"500 Internal Server Error", 500, []⟩
     (by decide) rfl⟩

/-- `requestHeaders` unfolded: mandatory headers first, then the caller
sets. -/
theorem requestHeaders_eq (token version : String) (extra : List HeaderMap) :
    requestHeaders token version extra
      = extra.foldl addHeaderSet
        (if token = "" then [("User-Agent", [userAgent version])]
         else headerAdd [("User-Agent", [userAgent version])] "section-token" token) := rfl

/-- The identity header of the mandatory base headers. -/
theorem headerGet_base_ua (version : String) :
    headerGet [("User-Agent", [userAgent version])] "User-Agent" = some (userAgent version) := by
  simp [headerGet, headerGetAll, keyMatches_refl]

/-- The two mandatory header keys do not collide case-insensitively. -/
theorem ua_not_auth_key : keyMatches "User-Agent" "section-token" = false := by decide

/-- Claim C5: whatever the caller-supplied header sets, the outgoing
request carries a `User-Agent` header whose first value is
`"sectionctl (<version>)"`, matching the pattern `^sectionctl (.+)$`
whenever the version string is non-empty; caller headers are merged
additively afterwards and can neither override nor remove it. -/
theorem c5_user_agent_identity (token version : String) (extra : List HeaderMap)
    (hv : version ≠ "") :
    headerGet (requestHeaders token version extra) "User-Agent" = some (userAgent version)
    ∧ ∃ mid, mid ≠ "" ∧ userAgent version = "sectionctl (" ++ mid ++ ")" := by
  constructor
  · rw [requestHeaders_eq]
    by_cases ht : token = ""
    · rw [if_pos ht]
      exact headerGet_foldSets extra (headerGet_base_ua version)
    · rw [if_neg ht]
      exact headerGet_foldSets extra (headerGet_headerAdd _ _ (headerGet_base_ua version))
  · exact ⟨version, hv, rfl⟩

/-- Witness for C5 at a concrete token, version and caller header set. -/
theorem c5_user_agent_identity_witness :
    ("1.2.3" : String) ≠ ""
    ∧ (headerGet (requestHeaders "s3cr3t" "1.2.3" [[("foo", ["bar"])]]) "User-Agent"
        = some (userAgent "1.2.3")
      ∧ ∃ mid, mid ≠ "" ∧ userAgent "1.2.3" = "sectionctl (" ++ mid ++ ")") :=
  ⟨by decide, c5_user_agent_identity "s3cr3t" "1.2.3" [[("foo", ["bar"])]] (by decide)⟩

/-- Claim C6 (corrected): as stated the claim fails because caller header
sets are merged additively: a call with an empty token whose caller set
itself carries a `section-token` entry produces a request on which the
header is present. -/
theorem c6_counterexample :
    headerGet (requestHeaders "" "1.0.0" [[("section-token", ["boom"])]]) "section-token"
      ≠ none := by decide

/-- Claim C6 (amended): when the Auth Token is non-empty the outgoing
request carries exactly that value as the first `section-token` value;
when the Auth Token is empty, `request` itself adds no such header, so it
is absent whenever no caller-supplied set mentions the key. -/
theorem c6_auth_token_header (token version : String) (extra : List HeaderMap) :
    (token ≠ "" →
      headerGet (requestHeaders token version extra) "section-token" = some token)
    ∧ (token = "" → noAuthKey extra →
      headerGet (requestHeaders token version extra) "section-token" = none) := by
  constructor
  · intro ht
    rw [requestHeaders_eq, if_neg ht]
    apply headerGet_foldSets
    simp [headerAdd, ua_not_auth_key, headerGet, headerGetAll, keyMatches_refl]
  · intro ht hno
    rw [requestHeaders_eq, if_pos ht]
    simp only [headerGet]
    rw [headerGetAll_foldSets_other extra hno]
    simp [headerGetAll, ua_not_auth_key]

/-- Witness for C6: a non-empty token with no caller sets, and an empty
token with a caller set not mentioning the auth key. -/
theorem c6_auth_token_header_witness :
    headerGet (requestHeaders "s3cr3t" "1.0.0" []) "section-token" = some "s3cr3t"
    ∧ headerGet (requestHeaders "" "1.0.0" [[("Hello", ["world"])]]) "section-token" = none :=
  ⟨(c6_auth_token_header "s3cr3t" "1.0.0" []).1 (by decide),
   (c6_auth_token_header "" "1.0.0" [[("Hello", ["world"])]]).2 rfl (by decide)⟩

/-- Claim C7: a `request` whose context deadline has already expired
fails with an error whose text contains "context deadline exceeded", and
no usable response value is returned. -/
theorem c7_deadline_exceeded (ctx : ReqContext) (net : NetResult)
    (h : ctx.expired = true) :
    ∃ msg, requestOutcome ctx net = Except.error msg
      ∧ strContains msg "context deadline exceeded"
      ∧ ∀ r, requestOutcome ctx net ≠ Except.ok r := by
  refine ⟨"Get: context deadline exceeded", ?_, by decide, ?_⟩
  · simp [requestOutcome, h]
  · intro r
    simp [requestOutcome, h]

/-- Witness for C7 at a concrete expired context. -/
theorem c7_deadline_exceeded_witness :
    (ReqContext.mk true).expired = true
    ∧ ∃ msg, requestOutcome ⟨true⟩ (NetResult.failure "boom") = Except.error msg
      ∧ strContains msg "context deadline exceeded"
      ∧ ∀ r, requestOutcome ⟨true⟩ (NetResult.failure "boom") ≠ Except.ok r :=
  ⟨rfl, c7_deadline_exceeded ⟨true⟩ (NetResult.failure "boom") rfl⟩

/-- Claim C8: every key/value pair of every caller-supplied header set is
present on the outgoing request; the merge is additive and is applied
after the mandatory headers, which remain present. -/
theorem c8_caller_headers_merged (token version : String) (extra : List HeaderMap)
    (hs : HeaderMap) (p : String × List String) (v : String)
    (hin : hs ∈ extra) (hp : p ∈ hs) (hv : v ∈ p.2) :
    v ∈ headerGetAll (requestHeaders token version extra) p.1
    ∧ headerGet (requestHeaders token version extra) "User-Agent" = some (userAgent version)
    ∧ (token ≠ "" →
        headerGet (requestHeaders token version extra) "section-token" = some token) := by
  refine ⟨?_, ?_, ?_⟩
  · rw [requestHeaders_eq]
    exact mem_foldSets_self _ extra hin hp hv
  · rw [requestHeaders_eq]
    by_cases ht : token = ""
    · rw [if_pos ht]
      exact headerGet_foldSets extra (headerGet_base_ua version)
    · rw [if_neg ht]
      exact headerGet_foldSets extra (headerGet_headerAdd _ _ (headerGet_base_ua version))
  · intro ht
    rw [requestHeaders_eq, if_neg ht]
    apply headerGet_foldSets
    simp [headerAdd, ua_not_auth_key, headerGet, headerGetAll, keyMatches_refl]

/-- Witness for C8 at two concrete caller header sets merged after a
non-empty token. -/
theorem c8_caller_headers_merged_witness :
    ("world" : String) ∈ headerGetAll (requestHeaders "s3cr3t" "1.2.3"
        [[("Hello", ["world"])], [("foo", ["bar"])]]) "Hello"
    ∧ headerGet (requestHeaders "s3cr3t" "1.2.3"
        [[("Hello", ["world"])], [("foo", ["bar"])]]) "User-Agent" = some (userAgent "1.2.3")
    ∧ headerGet (requestHeaders "s3cr3t" "1.2.3"
        [[("Hello", ["world"])], [("foo", ["bar"])]]) "section-token" = some "s3cr3t" :=
  ⟨(c8_caller_headers_merged "s3cr3t" "1.2.3" [[("Hello", ["world"])], [("foo", ["bar"])]]
      [("Hello", ["world"])] ("Hello", ["world"]) "world"
      (by decide) (by decide) (by decide)).1,
   (c8_caller_headers_merged "s3cr3t" "1.2.3" [[("Hello", ["world"])], [("foo", ["bar"])]]
      [("Hello", ["world"])] ("Hello", ["world"]) "world"
      (by decide) (by decide) (by decide)).2.1,
   (c8_caller_headers_merged "s3cr3t" "1.2.3" [[("Hello", ["world"])], [("foo", ["bar"])]]
      [("Hello", ["world"])] ("Hello", ["world"]) "world"
      (by decide) (by decide) (by decide)).2.2 (by decide)⟩

end Sectionctl
